import Mathlib

/-!
Verification of the MFA forced-alignment pipeline's quality-checking and
acoustic-analysis scripts.

The definitions below are a shallow embedding of
`scripts/alignment_quality_checker.py` and `scripts/acoustic_analysis.py`.
Times and durations (seconds, read from CSV columns) are modelled as exact
rationals `ℚ`; data-frame rows become structures; data-frame filtering becomes
`List.filter`; a loop that appends at most one entry per row becomes
`List.filterMap`.  Code that would raise a Python exception is modelled with
`Option`, `none` standing for the raised exception.

Square roots are irrational, so wherever the Python code compares
`|x - mean| / std > 3` (with `std = sqrt var`), the embedding compares the
squares: for `var > 0`, `|x - mean| / sqrt var > 3  ↔  (x - mean)^2 > 9 * var`.
Likewise `std = 0 ↔ var = 0`, and result fields that hold a standard deviation
store the variance (the number whose square root the code reports); no claim
depends on the numeric value of a reported standard deviation other than 0.
-/

namespace MFA

/-- One row of `phoneme_measurements.csv` as read by `AlignmentQualityChecker`:
columns `file`, `phoneme`, `start_time`, `end_time`, `duration`, `is_vowel`.
`duration` is its own CSV column (written as `end - start` by
`acoustic_analysis.py` but not recomputed by the checker). -/
structure PhonemeRec where
  file : String
  phoneme : String
  start_time : ℚ
  end_time : ℚ
  duration : ℚ
  is_vowel : Bool
deriving DecidableEq

/-- One row of `word_measurements.csv`: columns `file`, `word`, `start_time`,
`end_time`, `duration`. -/
structure WordRec where
  file : String
  word : String
  start_time : ℚ
  end_time : ℚ
  duration : ℚ
deriving DecidableEq

/-- Arithmetic mean, as `pandas.Series.mean` / `numpy.mean` compute it
(sum divided by count; `ℚ` division by zero gives 0, but every use below is
guarded by a length check as in the source). -/
def listMean (l : List ℚ) : ℚ := l.sum / l.length

/-- Squared deviations from the mean. -/
def sqDevs (l : List ℚ) : List ℚ := l.map (fun x => (x - listMean l) ^ 2)

/-- Sample variance with `ddof = 1`, the square of `pandas.Series.std()`
(the checker's `phoneme_data.std()`). -/
def sampleVar (l : List ℚ) : ℚ := (sqDevs l).sum / ((l.length : ℚ) - 1)

/-- Population variance with `ddof = 0`, the square of `numpy.std`. -/
def popVar (l : List ℚ) : ℚ := (sqDevs l).sum / (l.length : ℚ)

/-! ## `AlignmentQualityChecker.check_duration_anomalies`

Thresholds from `self.duration_thresholds`:
`vowel_min = 0.030`, `vowel_max = 0.400`,
`consonant_min = 0.020`, `consonant_max = 0.250`. -/

/-- The four anomaly categories of `check_duration_anomalies`. -/
inductive DurCat where
  | tooShortVowel
  | tooLongVowel
  | tooShortConsonant
  | tooLongConsonant
deriving DecidableEq

/-- The per-row branch of `check_duration_anomalies`: nested `if`/`elif`
on `is_vowel` and the fixed thresholds; a row in neither range yields no
anomaly.  The `else` branch of `is_vowel` treats every non-vowel row
(consonants and silence alike) with the consonant thresholds. -/
def durCategory (r : PhonemeRec) : Option DurCat :=
  if r.is_vowel then
    if r.duration < 30 / 1000 then some .tooShortVowel
    else if r.duration > 400 / 1000 then some .tooLongVowel
    else none
  else
    if r.duration < 20 / 1000 then some .tooShortConsonant
    else if r.duration > 250 / 1000 then some .tooLongConsonant
    else none

/-- The four lists built by `check_duration_anomalies`. -/
structure DurAnomalies where
  too_short_vowels : List PhonemeRec
  too_long_vowels : List PhonemeRec
  too_short_consonants : List PhonemeRec
  too_long_consonants : List PhonemeRec
deriving DecidableEq

/-- `check_duration_anomalies`: one pass over the phoneme rows, appending each
row to the list of its category (the loop's append-per-row is `List.filter`
by category). -/
def check_duration_anomalies (ps : List PhonemeRec) : DurAnomalies where
  too_short_vowels := ps.filter (fun r => durCategory r = some .tooShortVowel)
  too_long_vowels := ps.filter (fun r => durCategory r = some .tooLongVowel)
  too_short_consonants := ps.filter (fun r => durCategory r = some .tooShortConsonant)
  too_long_consonants := ps.filter (fun r => durCategory r = some .tooLongConsonant)

/-! ## `AlignmentQualityChecker.check_timing_gaps` -/

/-- A `gaps` entry of `check_timing_gaps`. -/
structure GapRec where
  file : String
  after_phoneme : String
  before_phoneme : String
  gap_ms : ℚ
  time : ℚ
deriving DecidableEq

/-- An `overlaps` entry of `check_timing_gaps`. -/
structure OverlapRec where
  file : String
  phoneme1 : String
  phoneme2 : String
  overlap_ms : ℚ
  time : ℚ
deriving DecidableEq

/-- `gap = next_start - current_end` for a consecutive pair. -/
def gapOf (c n : PhonemeRec) : ℚ := n.start_time - c.end_time

/-- The `gaps` branch of the pair loop: `if gap > 0.001` append a gap entry. -/
def pairGap (f : String) (c n : PhonemeRec) : Option GapRec :=
  if gapOf c n > 1 / 1000 then
    some ⟨f, c.phoneme, n.phoneme, gapOf c n * 1000, c.end_time⟩
  else none

/-- The `overlaps` branch: reached only through the `elif` (so not when
`gap > 0.001`), appends when `gap < -0.001`, with magnitude `abs gap`. -/
def pairOverlap (f : String) (c n : PhonemeRec) : Option OverlapRec :=
  if gapOf c n > 1 / 1000 then none
  else if gapOf c n < -(1 / 1000) then
    some ⟨f, c.phoneme, n.phoneme, |gapOf c n| * 1000, c.end_time⟩
  else none

/-- Insertion step of sorting by `start_time` (`sort_values('start_time')`). -/
def insertByStart (r : PhonemeRec) : List PhonemeRec → List PhonemeRec
  | [] => [r]
  | x :: xs =>
    if r.start_time ≤ x.start_time then r :: x :: xs else x :: insertByStart r xs

/-- Sort a file's rows by `start_time`. -/
def sortByStart (l : List PhonemeRec) : List PhonemeRec := l.foldr insertByStart []

/-- First-occurrence order of the distinct values of a column, as
`pandas.Series.unique` returns them. -/
def uniqueStrings (l : List String) : List String :=
  l.foldl (fun acc f => if f ∈ acc then acc else acc ++ [f]) []

/-- The consecutive pairs `(row i, row i+1)` of a list. -/
def consecPairs (l : List PhonemeRec) : List (PhonemeRec × PhonemeRec) :=
  l.zip l.tail

/-- `check_timing_gaps`: group the phoneme rows by `file` (files in
first-occurrence order), sort each group by `start_time`, and classify every
consecutive pair, collecting `gaps` and `overlaps`. -/
def check_timing_gaps (ps : List PhonemeRec) : List GapRec × List OverlapRec :=
  (uniqueStrings (ps.map (fun r => r.file))).foldl
    (fun acc f =>
      let fps := sortByStart (ps.filter (fun r => r.file = f))
      (acc.1 ++ (consecPairs fps).filterMap (fun p => pairGap f p.1 p.2),
       acc.2 ++ (consecPairs fps).filterMap (fun p => pairOverlap f p.1 p.2)))
    ([], [])

/-! ## `AlignmentQualityChecker.check_phoneme_distribution` -/

/-- An `outliers` entry.  `z_score_sq` stores the square of the reported
`z_score` (see the file comment on square roots). -/
structure OutlierRec where
  file : String
  phoneme : String
  duration : ℚ
  mean_duration : ℚ
  z_score_sq : ℚ
  time : ℚ
deriving DecidableEq

/-- The `duration` column of the rows of one phoneme symbol,
`self.phoneme_df[self.phoneme_df['phoneme'] == phoneme]['duration']`. -/
def durationsOf (ps : List PhonemeRec) (sym : String) : List ℚ :=
  (ps.filter (fun r => r.phoneme = sym)).map (fun r => r.duration)

/-- The square of the code's z-score over a duration sample `l`:
`z = abs ((d - mean) / std)` with `std = phoneme_data.std()` (sample std,
ddof 1), and `z = 0` when `std = 0` is not `> 0`.  Squared: `(d - mean)^2 /
sampleVar` when `sampleVar > 0`, else `0`. -/
def zScoreSq (d : ℚ) (l : List ℚ) : ℚ :=
  if sampleVar l > 0 then (d - listMean l) ^ 2 / sampleVar l else 0

/-- The flag `z_score > 3`, squared: `zScoreSq > 9`. -/
def isOutlier (d : ℚ) (l : List ℚ) : Bool := zScoreSq d l > 9

/-- The outlier entries of one phoneme symbol: skip the symbol entirely when
it has fewer than 3 rows (`if len(phoneme_data) < 3: continue`), otherwise
flag each of its rows whose z-score exceeds 3. -/
def symbolOutliers (ps : List PhonemeRec) (sym : String) : List OutlierRec :=
  let durs := durationsOf ps sym
  if durs.length < 3 then []
  else
    (ps.filter (fun r => r.phoneme = sym)).filterMap (fun r =>
      if isOutlier r.duration durs then
        some ⟨r.file, sym, r.duration, listMean durs, zScoreSq r.duration durs,
              r.start_time⟩
      else none)

/-- `check_phoneme_distribution`: iterate the distinct phoneme symbols in
first-occurrence order and collect each symbol's outlier entries. -/
def check_phoneme_distribution (ps : List PhonemeRec) : List OutlierRec :=
  (uniqueStrings (ps.map (fun r => r.phoneme))).flatMap (symbolOutliers ps)

/-- Modelled from the spec sentence the claim list quotes: z-scores from the
symbol's mean and POPULATION standard deviation (`z = abs (d - mean) / std`,
`z = 0` when `std = 0`), squared as for `isOutlier`.  This is the claimed
rule, kept separate so it can be compared with the code's `isOutlier`. -/
def isOutlierPopSpec (d : ℚ) (l : List ℚ) : Bool :=
  (if popVar l > 0 then (d - listMean l) ^ 2 / popVar l else 0) > 9

/-! ## `AlignmentQualityChecker.check_word_phoneme_consistency` -/

/-- A `mismatches` entry: either `issue = 'no_phonemes'` or
`issue = 'duration_mismatch'` with its extra fields. -/
inductive WPIssue where
  | no_phonemes (file word : String) (time : ℚ)
  | duration_mismatch (file word : String)
      (word_duration phoneme_sum difference_ms time : ℚ)
deriving DecidableEq

/-- The phoneme rows matched to a word: same `file`, `start_time` at least
`word.start_time - 0.001` and `end_time` at most `word.end_time + 0.001`
(both comparisons inclusive). -/
def phonemesInWord (ps : List PhonemeRec) (w : WordRec) : List PhonemeRec :=
  ps.filter (fun p =>
    p.file = w.file ∧ p.start_time ≥ w.start_time - 1 / 1000 ∧
      p.end_time ≤ w.end_time + 1 / 1000)

/-- The per-word body of the loop: zero matched phonemes append a
`no_phonemes` entry and `continue`; otherwise a `duration_mismatch` entry
is appended exactly when `abs (word_duration - phoneme_duration_sum)`
exceeds the 10 ms tolerance. -/
def wordIssue (ps : List PhonemeRec) (w : WordRec) : Option WPIssue :=
  let piw := phonemesInWord ps w
  if piw.length = 0 then some (.no_phonemes w.file w.word w.start_time)
  else
    let s := (piw.map (fun p => p.duration)).sum
    if |w.duration - s| > 10 / 1000 then
      some (.duration_mismatch w.file w.word w.duration s
        (|w.duration - s| * 1000) w.start_time)
    else none

/-- `check_word_phoneme_consistency`: one pass over the word rows, at most
one `mismatches` entry per word. -/
def check_word_phoneme_consistency (ws : List WordRec) (ps : List PhonemeRec) :
    List WPIssue :=
  ws.filterMap (wordIssue ps)

/-! ## `AlignmentQualityChecker.generate_quality_report` -/

/-- The quality grade printed from the error rate. -/
inductive Grade where
  | excellent
  | good
  | fair
  | poor
deriving DecidableEq

/-- The `if error_rate < 5 / elif < 10 / elif < 20 / else` ladder. -/
def gradeOf (er : ℚ) : Grade :=
  if er < 5 then .excellent
  else if er < 10 then .good
  else if er < 20 then .fair
  else .poor

/-- The summary part of the report: counts, `total_issues`, `error_rate`
and the printed grade. -/
structure QualityReport where
  total_phonemes : ℕ
  total_words : ℕ
  total_issues : ℕ
  error_rate : ℚ
  grade : Grade
deriving DecidableEq

/-- The sum of the four duration-anomaly counts. -/
def durAnomalyCount (a : DurAnomalies) : ℕ :=
  a.too_short_vowels.length + a.too_long_vowels.length +
    a.too_short_consonants.length + a.too_long_consonants.length

/-- `generate_quality_report`: run the four checks, sum their counts into
`total_issues`, and compute `error_rate = (total_issues / total_phonemes) *
100`.  With `total_phonemes = 0` the Python division raises
`ZeroDivisionError`; `none` models that raised exception — the source has no
guard producing a report for an empty corpus. -/
def generate_quality_report (ps : List PhonemeRec) (ws : List WordRec) :
    Option QualityReport :=
  let da := check_duration_anomalies ps
  let ti := check_timing_gaps ps
  let so := check_phoneme_distribution ps
  let ci := check_word_phoneme_consistency ws ps
  let total_issues := durAnomalyCount da + ti.1.length + ti.2.length +
    so.length + ci.length
  if ps.length = 0 then none
  else
    let er : ℚ := ((total_issues : ℚ) / (ps.length : ℚ)) * 100
    some ⟨ps.length, ws.length, total_issues, er, gradeOf er⟩

/-! ## `AcousticAnalyzer.extract_formants`

The Praat formant queries are external I/O; a run of the sampling loop is
modelled by the list of per-time-point samples, one triple per measurement
time, each component `Option ℚ`: `none` is a sample the loop discards
(falsy, `NaN`, or lost to the `except: continue`), `some v` a value the loop
appends to that track's list. -/

/-- One measurement time's three formant samples. -/
structure FormantSample where
  f1 : Option ℚ
  f2 : Option ℚ
  f3 : Option ℚ
deriving DecidableEq

/-- The returned dict.  `f1_mean` is always a number (the `not f1_values`
case returns `None` for the whole dict first); `f2_mean`/`f3_mean` are
Python `None` (`Option.none`) when that track kept no samples.  The `_std`
fields hold the square of the reported `np.std` (see the file comment);
they are plain numbers — the code writes `0`, never `None`, when a track
has at most one sample. -/
structure FormantResult where
  f1_mean : ℚ
  f1_std_sq : ℚ
  f2_mean : Option ℚ
  f2_std_sq : ℚ
  f3_mean : Option ℚ
  f3_std_sq : ℚ
deriving DecidableEq

/-- A track's kept values. -/
def keptF1 (samples : List FormantSample) : List ℚ :=
  samples.filterMap (fun s => s.f1)

/-- A track's kept values. -/
def keptF2 (samples : List FormantSample) : List ℚ :=
  samples.filterMap (fun s => s.f2)

/-- A track's kept values. -/
def keptF3 (samples : List FormantSample) : List ℚ :=
  samples.filterMap (fun s => s.f3)

/-- `extract_formants` after the Praat object is built: return `None` when
`end_time - start_time < 0.03`; run the sampling loop; return `None` when
the first track kept nothing (`if not f1_values`); otherwise build the dict
with `np.mean` per non-empty track (`None` for an empty second or third
track) and `np.std if len > 1 else 0` per track. -/
def extract_formants (start_time end_time : ℚ) (samples : List FormantSample) :
    Option FormantResult :=
  if end_time - start_time < 30 / 1000 then none
  else
    let f1v := keptF1 samples
    let f2v := keptF2 samples
    let f3v := keptF3 samples
    if f1v = [] then none
    else
      some
        { f1_mean := listMean f1v
          f1_std_sq := if f1v.length > 1 then popVar f1v else 0
          f2_mean := if f2v = [] then none else some (listMean f2v)
          f2_std_sq := if f2v.length > 1 then popVar f2v else 0
          f3_mean := if f3v = [] then none else some (listMean f3v)
          f3_std_sq := if f3v.length > 1 then popVar f3v else 0 }

/-! ## Tier selection in `AcousticAnalyzer.analyze_file`

Tier names are lists of characters; `lowerHas name pat` is Python's
`pat in name.lower()` for a lowercase pattern `pat`. -/

/-- Python's `startswith` on character lists. -/
def charsStart : List Char → List Char → Bool
  | [], _ => true
  | _ :: _, [] => false
  | p :: ps, c :: cs => p = c && charsStart ps cs

/-- Python's `pat in s` substring test on character lists. -/
def charsHave (pat : List Char) : List Char → Bool
  | [] => charsStart pat []
  | c :: cs => charsStart pat (c :: cs) || charsHave pat cs

/-- `pat in tier_name.lower()`. -/
def lowerHas (pat name : List Char) : Bool :=
  charsHave pat (name.map Char.toLower)

/-- The tier-scanning loop body, 1-based index `i` as in
`for i in range(1, n_tiers + 1)`: `if 'word' in tier_name.lower():
word_tier_idx = i  elif 'phone' in tier_name.lower(): phone_tier_idx = i`. -/
def scanTiers : ℕ → Option ℕ × Option ℕ → List (List Char) →
    Option ℕ × Option ℕ
  | _, acc, [] => acc
  | i, acc, name :: rest =>
    scanTiers (i + 1)
      (if lowerHas ['w', 'o', 'r', 'd'] name then (some i, acc.2)
       else if lowerHas ['p', 'h', 'o', 'n', 'e'] name then (acc.1, some i)
       else acc)
      rest

/-- The `(word_tier_idx, phone_tier_idx)` pair the scan leaves behind. -/
def findTierIdxs (tiers : List (List Char)) : Option ℕ × Option ℕ :=
  scanTiers 1 (none, none) tiers

/-- The index of the last tier (1-based, counting from `i`) satisfying `p`,
or the fallback `acc` when none does. -/
def lastMatchFrom (p : List Char → Bool) : ℕ → Option ℕ → List (List Char) →
    Option ℕ
  | _, acc, [] => acc
  | i, acc, name :: rest =>
    lastMatchFrom p (i + 1) (if p name then some i else acc) rest

/-- Modelled from the spec sentence the claim list quotes: the selected tier
of a kind is the last tier in scan order whose lowercased name contains the
kind's substring, each kind matched independently of the other.  Kept
separate so it can be compared with the code's `findTierIdxs`. -/
def specTierIdxs (tiers : List (List Char)) : Option ℕ × Option ℕ :=
  (lastMatchFrom (lowerHas ['w', 'o', 'r', 'd']) 1 none tiers,
   lastMatchFrom (lowerHas ['p', 'h', 'o', 'n', 'e']) 1 none tiers)

/-! ## Concrete inputs used by witnesses and counterexamples -/

/-- A well-formed 100 ms vowel row (used as a one-row corpus). -/
def rC3 : PhonemeRec := ⟨"f0", "AE1", 0, 1 / 10, 1 / 10, true⟩

/-- A 15 ms vowel row. -/
def vshort : PhonemeRec := ⟨"f0", "AE1", 42 / 100, 435 / 1000, 15 / 1000, true⟩

/-- A row of symbol `A` with the given duration. -/
def recA (d : ℚ) : PhonemeRec := ⟨"f0", "A", 0, 0, d, true⟩

/-- Eleven rows of symbol `A`, durations 60 ms, nine times 28 ms, 18 ms:
mean 30 ms, squared-deviation sum 27/25000.  The population z-score of the
60 ms row is sqrt(11 * 9/10000 / (27/25000)) = sqrt(9.1666...) > 3, while its
sample z-score is sqrt(10 * 9/10000 / (27/25000)) = sqrt(8.333...) ≤ 3. -/
def psPop : List PhonemeRec :=
  [recA (60 / 1000), recA (28 / 1000), recA (28 / 1000), recA (28 / 1000),
   recA (28 / 1000), recA (28 / 1000), recA (28 / 1000), recA (28 / 1000),
   recA (28 / 1000), recA (28 / 1000), recA (18 / 1000)]

/-- One measurement time whose first-track sample is kept and whose second
and third tracks are discarded. -/
def smpTrack2Empty : List FormantSample := [⟨some 500, none, none⟩]

/-- Two tiers: the first named `phones`, the second `word - phones` (its
name contains both substrings). -/
def tiersBoth : List (List Char) := ["phones".toList, "word - phones".toList]

/-- A row of symbol `A` with the given duration (consonant flag clear). -/
def locA (d : ℚ) : PhonemeRec := ⟨"f0", "A", 0, 0, d, false⟩

/-- A row of symbol `B` with the given duration. -/
def locB (d : ℚ) : PhonemeRec := ⟨"f0", "B", 0, 0, d, false⟩

/-- A corpus whose `A` rows are durations 1, 1, 2 with one `B` row. -/
def corpus1 : List PhonemeRec := [locA 1, locB 5, locA 1, locA 2]

/-- Same `A` rows as `corpus1`, entirely different `B` rows. -/
def corpus2 : List PhonemeRec := [locA 1, locA 1, locB 7, locB 8, locA 2]

/-! ## Helper lemmas -/

/-- Each grade of the `gradeOf` ladder holds exactly on its half-open
interval; the boundaries land in the next grade down. -/
theorem gradeOf_iff (er : ℚ) :
    (gradeOf er = .excellent ↔ er < 5) ∧
    (gradeOf er = .good ↔ 5 ≤ er ∧ er < 10) ∧
    (gradeOf er = .fair ↔ 10 ≤ er ∧ er < 20) ∧
    (gradeOf er = .poor ↔ 20 ≤ er) := by
  unfold gradeOf
  split_ifs with h1 h2 h3 <;>
    simp_all only [not_lt] <;>
    refine ⟨?_, ?_, ?_, ?_⟩ <;>
    simp <;>
    first
      | linarith
      | (rintro ⟨a, b⟩; linarith)
      | (intro a; linarith)

/-- Membership in the fold that builds `uniqueStrings`. -/
theorem uniqueStrings_aux_mem (l : List String) :
    ∀ (acc : List String) (x : String),
      x ∈ l.foldl (fun acc f => if f ∈ acc then acc else acc ++ [f]) acc ↔
        x ∈ acc ∨ x ∈ l := by
  induction l with
  | nil => simp
  | cons a t ih =>
    intro acc x
    simp only [List.foldl_cons]
    rw [ih]
    by_cases ha : a ∈ acc
    · rw [if_pos ha]
      constructor
      · rintro (hx | hx)
        · exact Or.inl hx
        · exact Or.inr (List.mem_cons_of_mem a hx)
      · rintro (hx | hx)
        · exact Or.inl hx
        · rcases List.mem_cons.mp hx with rfl | hx
          · exact Or.inl ha
          · exact Or.inr hx
    · rw [if_neg ha]
      simp only [List.mem_append, List.mem_cons, List.mem_singleton]
      tauto

/-- `uniqueStrings` keeps exactly the values of the column. -/
theorem mem_uniqueStrings (l : List String) (x : String) :
    x ∈ uniqueStrings l ↔ x ∈ l := by
  unfold uniqueStrings
  rw [uniqueStrings_aux_mem]
  simp

/-- The fold that builds `uniqueStrings` preserves `Nodup`. -/
theorem uniqueStrings_aux_nodup (l : List String) :
    ∀ acc : List String, acc.Nodup →
      (l.foldl (fun acc f => if f ∈ acc then acc else acc ++ [f]) acc).Nodup := by
  induction l with
  | nil => intro acc h; simpa using h
  | cons a t ih =>
    intro acc h
    simp only [List.foldl_cons]
    by_cases ha : a ∈ acc
    · rw [if_pos ha]; exact ih acc h
    · rw [if_neg ha]
      refine ih _ ?_
      rw [List.nodup_append]
      exact ⟨h, List.nodup_singleton a, by simpa using ha⟩

/-- `uniqueStrings` has no duplicates. -/
theorem uniqueStrings_nodup (l : List String) : (uniqueStrings l).Nodup :=
  uniqueStrings_aux_nodup l [] List.nodup_nil

/-- Every entry emitted for a symbol carries that symbol. -/
theorem symbolOutliers_phoneme (ps : List PhonemeRec) (s : String) :
    ∀ o ∈ symbolOutliers ps s, o.phoneme = s := by
  intro o ho
  simp only [symbolOutliers] at ho
  split_ifs at ho with h
  · simp at ho
  · rw [List.mem_filterMap] at ho
    obtain ⟨r, _, hr⟩ := ho
    split_ifs at hr
    · cases hr; rfl

/-- Flattening a family that is empty off one key collapses to that key's
value when the key list has no duplicates. -/
theorem flatMap_ite_single {α : Type} (u : List String) (hA : u.Nodup)
    (A : String) (xs : List α) :
    u.flatMap (fun s => if s = A then xs else []) = if A ∈ u then xs else [] := by
  induction u with
  | nil => simp
  | cons b t ih =>
    simp only [List.flatMap_cons]
    rcases List.nodup_cons.mp hA with ⟨hb, ht⟩
    by_cases hbA : b = A
    · subst hbA
      rw [if_pos rfl, if_pos (List.mem_cons_self b t)]
      have hnil : t.flatMap (fun s => if s = b then xs else []) = [] := by
        refine List.flatMap_eq_nil_iff.mpr ?_
        intro s hs
        rw [if_neg]
        intro hsb
        exact hb (hsb ▸ hs)
      rw [hnil]
      simp
    · rw [if_neg hbA, ih ht]
      by_cases hAt : A ∈ t <;>
        simp [hAt, hbA, List.mem_cons]
      exact fun h => absurd h.symm hbA

/-- The outlier entries the whole check emits for one symbol are exactly
that symbol's `symbolOutliers`. -/
theorem check_filter_symbol (l : List PhonemeRec) (A : String) :
    (check_phoneme_distribution l).filter (fun o => o.phoneme = A) =
      symbolOutliers l A := by
  unfold check_phoneme_distribution
  rw [List.filter_flatMap]
  have h1 : ∀ s : String,
      (symbolOutliers l s).filter (fun o => decide (o.phoneme = A)) =
        if s = A then symbolOutliers l A else [] := by
    intro s
    by_cases hs : s = A
    · subst hs
      rw [if_pos rfl]
      refine List.filter_eq_self.mpr ?_
      intro o ho
      simpa using symbolOutliers_phoneme l s o ho
    · rw [if_neg hs]
      refine List.filter_eq_nil_iff.mpr ?_
      intro o ho
      have := symbolOutliers_phoneme l s o ho
      simp [this, hs]
  simp only [h1]
  rw [flatMap_ite_single _ (uniqueStrings_nodup _) A]
  split_ifs with hA
  · rfl
  · rw [mem_uniqueStrings] at hA
    unfold symbolOutliers
    rw [if_pos]
    have hnil : l.filter (fun r => r.phoneme = A) = [] := by
      refine List.filter_eq_nil_iff.mpr ?_
      intro r hr
      simp only [decide_eq_true_eq]
      intro hph
      exact hA (by
        rw [List.mem_map]
        exact ⟨r, hr, hph⟩)
    unfold durationsOf
    rw [hnil]
    simp

/-- The tier scan in closed form: the word slot holds the last `word` match,
the phone slot the last match of `phone`-but-not-`word` (the `elif`). -/
theorem scanTiers_lastMatch :
    ∀ (l : List (List Char)) (i : ℕ) (acc : Option ℕ × Option ℕ),
      scanTiers i acc l =
        (lastMatchFrom (lowerHas ['w', 'o', 'r', 'd']) i acc.1 l,
         lastMatchFrom
           (fun name => !lowerHas ['w', 'o', 'r', 'd'] name &&
             lowerHas ['p', 'h', 'o', 'n', 'e'] name) i acc.2 l) := by
  intro l
  induction l with
  | nil => intro i acc; rfl
  | cons name rest ih =>
    intro i acc
    simp only [scanTiers]
    rw [ih]
    by_cases hw : lowerHas ['w', 'o', 'r', 'd'] name
    · simp [lastMatchFrom, hw]
    · by_cases hp : lowerHas ['p', 'h', 'o', 'n', 'e'] name <;>
        simp [lastMatchFrom, hw, hp]

/-! ## The claims -/

/-- C1 (amended): for every phoneme symbol, a symbol with fewer than 3
occurrences produces no outlier flags; when the SAMPLE standard deviation
(pandas `std()`, ddof 1) is zero every z-score is taken as 0 and nothing is
flagged; an occurrence is flagged exactly when its z-score computed with the
sample standard deviation exceeds 3 (squared: `(d - mean)^2 > 9 * sampleVar`);
and for a symbol with at least 3 occurrences the emitted entries are exactly
its flagged occurrences in row order. -/
theorem outlier_flag_sample_std_rule (ps : List PhonemeRec) (sym : String) :
    ((durationsOf ps sym).length < 3 → symbolOutliers ps sym = []) ∧
    (sampleVar (durationsOf ps sym) = 0 → symbolOutliers ps sym = []) ∧
    (∀ d : ℚ, isOutlier d (durationsOf ps sym) = true ↔
      0 < sampleVar (durationsOf ps sym) ∧
        9 * sampleVar (durationsOf ps sym) <
          (d - listMean (durationsOf ps sym)) ^ 2) ∧
    (3 ≤ (durationsOf ps sym).length →
      symbolOutliers ps sym =
        (ps.filter (fun r => r.phoneme = sym)).filterMap (fun r =>
          if isOutlier r.duration (durationsOf ps sym) then
            some ⟨r.file, sym, r.duration, listMean (durationsOf ps sym),
              zScoreSq r.duration (durationsOf ps sym), r.start_time⟩
          else none)) := by
  have hflag : ∀ d : ℚ, isOutlier d (durationsOf ps sym) = true ↔
      0 < sampleVar (durationsOf ps sym) ∧
        9 * sampleVar (durationsOf ps sym) <
          (d - listMean (durationsOf ps sym)) ^ 2 := by
    intro d
    unfold isOutlier zScoreSq
    split_ifs with hv
    · rw [decide_eq_true_eq, gt_iff_lt, lt_div_iff₀ hv]
      constructor
      · intro hlt; exact ⟨hv, by linarith⟩
      · rintro ⟨_, hlt⟩; linarith
    · simp only [gt_iff_lt, decide_eq_true_eq]
      constructor
      · intro hlt; linarith
      · rintro ⟨hpos, _⟩; exact absurd hpos hv
  refine ⟨?_, ?_, hflag, ?_⟩
  · intro hlen
    unfold symbolOutliers
    rw [if_pos hlen]
  · intro hvar
    simp only [symbolOutliers]
    split_ifs with hlen
    · rfl
    · refine List.filterMap_eq_nil_iff.mpr ?_
      intro r hr
      rw [if_neg ?_]
      intro hout
      rcases (hflag r.duration).mp hout with ⟨hpos, _⟩
      rw [hvar] at hpos
      exact lt_irrefl 0 hpos
  · intro hlen
    simp only [symbolOutliers]
    rw [if_neg (by omega)]

/-- C1 (counterexample): in the corpus `psPop`, the symbol `A` has 11
occurrences; the claimed rule — flag exactly when the z-score over the
POPULATION standard deviation exceeds 3 — flags the 60 ms occurrence, but
the code (sample standard deviation) emits no outlier at all. -/
theorem outlier_population_std_counterexample :
    3 ≤ (durationsOf psPop "A").length ∧
    (60 / 1000 : ℚ) ∈ durationsOf psPop "A" ∧
    isOutlierPopSpec (60 / 1000) (durationsOf psPop "A") = true ∧
    check_phoneme_distribution psPop = [] := by
  refine ⟨by norm_num [durationsOf, psPop, recA], by norm_num [durationsOf, psPop, recA], ?_, ?_⟩
  · norm_num [isOutlierPopSpec, popVar, sqDevs, listMean, durationsOf, psPop, recA]
  · norm_num [check_phoneme_distribution, uniqueStrings, psPop, recA, symbolOutliers,
      durationsOf, isOutlier, zScoreSq, sampleVar, sqDevs, listMean]

/-- C2: on an empty corpus (`total_phonemes = 0`) the report generator
reaches `error_rate = (total_issues / len(self.phoneme_df)) * 100` with a
zero denominator and raises `ZeroDivisionError` (modelled as `none`): the
division is NOT guarded and no "no data" report is produced. -/
theorem empty_corpus_report_raises : generate_quality_report [] [] = none := rfl

/-- C3: whenever the corpus is non-empty, the report's `total_issues` is the
sum of the four duration-anomaly counts, the gap and overlap counts, the
statistical-outlier count and the word-phoneme-mismatch count; `error_rate`
is `total_issues / total_phonemes * 100`; and the grade is EXCELLENT iff
`error_rate < 5`, GOOD iff `5 ≤ error_rate < 10`, FAIR iff
`10 ≤ error_rate < 20`, POOR iff `error_rate ≥ 20` (upper boundaries
exclusive). -/
theorem report_error_rate_and_grade (ps : List PhonemeRec) (ws : List WordRec)
    (h : 0 < ps.length) :
    ∃ rep : QualityReport,
      generate_quality_report ps ws = some rep ∧
      rep.total_issues =
        durAnomalyCount (check_duration_anomalies ps) +
          (check_timing_gaps ps).1.length + (check_timing_gaps ps).2.length +
          (check_phoneme_distribution ps).length +
          (check_word_phoneme_consistency ws ps).length ∧
      rep.error_rate = (rep.total_issues : ℚ) / (ps.length : ℚ) * 100 ∧
      (rep.grade = .excellent ↔ rep.error_rate < 5) ∧
      (rep.grade = .good ↔ 5 ≤ rep.error_rate ∧ rep.error_rate < 10) ∧
      (rep.grade = .fair ↔ 10 ≤ rep.error_rate ∧ rep.error_rate < 20) ∧
      (rep.grade = .poor ↔ 20 ≤ rep.error_rate) := by
  unfold generate_quality_report
  rw [if_neg (Nat.pos_iff_ne_zero.mp h)]
  exact ⟨_, rfl, rfl, rfl, (gradeOf_iff _).1, (gradeOf_iff _).2.1,
    (gradeOf_iff _).2.2.1, (gradeOf_iff _).2.2.2⟩

/-- C3 (witness): the report of the one-row corpus `[rC3]`. -/
theorem report_error_rate_and_grade_witness :
    ∃ rep : QualityReport,
      generate_quality_report [rC3] [] = some rep ∧
      rep.total_issues =
        durAnomalyCount (check_duration_anomalies [rC3]) +
          (check_timing_gaps [rC3]).1.length + (check_timing_gaps [rC3]).2.length +
          (check_phoneme_distribution [rC3]).length +
          (check_word_phoneme_consistency [] [rC3]).length ∧
      rep.error_rate = (rep.total_issues : ℚ) / (([rC3] : List PhonemeRec).length : ℚ) * 100 ∧
      (rep.grade = .excellent ↔ rep.error_rate < 5) ∧
      (rep.grade = .good ↔ 5 ≤ rep.error_rate ∧ rep.error_rate < 10) ∧
      (rep.grade = .fair ↔ 10 ≤ rep.error_rate ∧ rep.error_rate < 20) ∧
      (rep.grade = .poor ↔ 20 ≤ rep.error_rate) :=
  report_error_rate_and_grade [rC3] [] (by decide)

/-- C4: for every consecutive pair of a file's rows, with
`gap = next.start_time - current.end_time`: a `gaps` entry is emitted iff
`gap > 1 ms` (carrying `gap * 1000`), an `overlaps` entry is emitted iff
`gap < -1 ms` (carrying `|gap| * 1000`), and neither is emitted iff
`|gap| ≤ 1 ms` — exactly one of the three outcomes holds. -/
theorem timing_pair_trichotomy (f : String) (c n : PhonemeRec) :
    ((pairGap f c n).isSome ↔ gapOf c n > 1 / 1000) ∧
    ((pairOverlap f c n).isSome ↔ gapOf c n < -(1 / 1000)) ∧
    ((pairGap f c n = none ∧ pairOverlap f c n = none) ↔ |gapOf c n| ≤ 1 / 1000) ∧
    ((pairGap f c n).map (fun g => g.gap_ms) =
      if gapOf c n > 1 / 1000 then some (gapOf c n * 1000) else none) ∧
    ((pairOverlap f c n).map (fun o => o.overlap_ms) =
      if gapOf c n < -(1 / 1000) then some (|gapOf c n| * 1000) else none) := by
  unfold pairGap pairOverlap
  split_ifs with h1 h2 <;>
    simp_all [abs_le] <;>
    first
      | (rintro ⟨a, b⟩; linarith)
      | (constructor <;> linarith)
      | linarith

/-- C5 (amended): the formant sampler returns no result exactly when the
window is shorter than 30 ms or the first track kept no valid samples; in a
returned result a track's mean is omitted (`None`) exactly when that track
kept no samples, but its standard deviation is then reported as the number
0, not omitted. -/
theorem extract_formants_guards (start_time end_time : ℚ)
    (samples : List FormantSample) :
    (extract_formants start_time end_time samples = none ↔
      end_time - start_time < 30 / 1000 ∨ keptF1 samples = []) ∧
    (∀ r : FormantResult, extract_formants start_time end_time samples = some r →
      (r.f2_mean = none ↔ keptF2 samples = []) ∧
      (keptF2 samples = [] → r.f2_std_sq = 0) ∧
      (r.f3_mean = none ↔ keptF3 samples = []) ∧
      (keptF3 samples = [] → r.f3_std_sq = 0)) := by
  unfold extract_formants
  split_ifs with h1 h2 <;> simp_all

/-- C5 (counterexample): a 50 ms window with one kept first-track sample and
no kept second-track samples yields a result whose `f2_mean` is omitted but
whose `f2_std` is present with value 0 — the claim says both are omitted. -/
theorem formant_empty_track_std_counterexample :
    keptF2 smpTrack2Empty = [] ∧
    extract_formants 0 (5 / 100) smpTrack2Empty =
      some ⟨500, 0, none, 0, none, 0⟩ := by
  constructor
  · rfl
  · norm_num [extract_formants, keptF1, keptF2, keptF3, smpTrack2Empty,
      listMean, popVar, sqDevs, List.filterMap_cons]

/-- C6: a word's matched phonemes are exactly the rows of the same file
whose start is at least `word.start - 1 ms` and whose end is at most
`word.end + 1 ms` (both inclusive); zero matches emit a `no_phonemes` entry;
otherwise a `duration_mismatch` entry, carrying
`|word.duration - phoneme_sum| * 1000`, is emitted exactly when
`|word.duration - phoneme_sum| > 10 ms`. -/
theorem word_phoneme_consistency_rule (ps : List PhonemeRec) (w : WordRec) :
    (∀ p : PhonemeRec, p ∈ phonemesInWord ps w ↔
      p ∈ ps ∧ p.file = w.file ∧ w.start_time - 1 / 1000 ≤ p.start_time ∧
        p.end_time ≤ w.end_time + 1 / 1000) ∧
    (wordIssue ps w =
      if phonemesInWord ps w = [] then
        some (.no_phonemes w.file w.word w.start_time)
      else if |w.duration - ((phonemesInWord ps w).map (fun p => p.duration)).sum| > 10 / 1000 then
        some (.duration_mismatch w.file w.word w.duration
          ((phonemesInWord ps w).map (fun p => p.duration)).sum
          (|w.duration - ((phonemesInWord ps w).map (fun p => p.duration)).sum| * 1000)
          w.start_time)
      else none) := by
  constructor
  · intro p
    unfold phonemesInWord
    simp [List.mem_filter, ge_iff_le, and_assoc]
  · unfold wordIssue
    simp only [List.length_eq_zero]

/-- C7: a vowel row lands in `too_short_vowels` iff its duration is below
30 ms, in `too_long_vowels` iff above 400 ms, and never in a consonant list;
a non-vowel row (silence included) lands in `too_short_consonants` iff below
20 ms, in `too_long_consonants` iff above 250 ms, and never in a vowel list;
boundary and in-range durations land nowhere. -/
theorem duration_thresholds_per_record (ps : List PhonemeRec) (r : PhonemeRec)
    (hr : r ∈ ps) :
    (r.is_vowel = true →
      (r ∈ (check_duration_anomalies ps).too_short_vowels ↔ r.duration < 30 / 1000) ∧
      (r ∈ (check_duration_anomalies ps).too_long_vowels ↔ r.duration > 400 / 1000) ∧
      r ∉ (check_duration_anomalies ps).too_short_consonants ∧
      r ∉ (check_duration_anomalies ps).too_long_consonants) ∧
    (r.is_vowel = false →
      (r ∈ (check_duration_anomalies ps).too_short_consonants ↔ r.duration < 20 / 1000) ∧
      (r ∈ (check_duration_anomalies ps).too_long_consonants ↔ r.duration > 250 / 1000) ∧
      r ∉ (check_duration_anomalies ps).too_short_vowels ∧
      r ∉ (check_duration_anomalies ps).too_long_vowels) := by
  unfold check_duration_anomalies durCategory
  constructor <;> intro hv <;>
    simp only [List.mem_filter, hr, true_and, hv, if_true, if_false,
      Bool.false_eq_true, decide_eq_true_eq] <;>
    split_ifs with h1 h2 <;> simp_all <;> linarith

/-- C7 (witness): the 15 ms vowel `vshort` in the one-row corpus is flagged
too short and is in no consonant list. -/
theorem duration_thresholds_per_record_witness :
    (vshort ∈ (check_duration_anomalies [vshort]).too_short_vowels ↔
      vshort.duration < 30 / 1000) ∧
    vshort ∉ (check_duration_anomalies [vshort]).too_short_consonants := by
  have h := (duration_thresholds_per_record [vshort] vshort
    (List.mem_singleton.mpr rfl)).1 rfl
  exact ⟨h.1, h.2.2.1⟩

/-- C8 (amended): a tier is selected as the WORD tier if its lowercased name
contains `word`; only otherwise (the `elif`) is it selected as the PHONE
tier if its name contains `phone` — a tier matching both counts only as
WORD; for each kind the last matching tier in scan order wins. -/
theorem tier_selection_word_priority (tiers : List (List Char)) :
    findTierIdxs tiers =
      (lastMatchFrom (lowerHas ['w', 'o', 'r', 'd']) 1 none tiers,
       lastMatchFrom
         (fun name => !lowerHas ['w', 'o', 'r', 'd'] name &&
           lowerHas ['p', 'h', 'o', 'n', 'e'] name) 1 none tiers) :=
  scanTiers_lastMatch tiers 1 (none, none)

/-- C8 (counterexample): with tiers `phones` and `word - phones`, the claimed
independent-match rule selects tier 2 for both kinds, but the code selects
`(word, phone) = (2, 1)`: the second tier's `word` match hides its `phone`
match. -/
theorem tier_selection_counterexample :
    findTierIdxs tiersBoth = (some 2, some 1) ∧
    specTierIdxs tiersBoth = (some 2, some 2) := by
  constructor <;> rfl

/-- C9: outlier detection is symbol-local — two corpora that agree on the
rows of symbol `A` (same rows, same order) get the same durations, the same
per-symbol outlier entries for `A`, and the same `A`-entries of the whole
check, whatever their other symbols hold. -/
theorem outlier_check_symbol_local (l₁ l₂ : List PhonemeRec) (A : String)
    (h : l₁.filter (fun r => r.phoneme = A) = l₂.filter (fun r => r.phoneme = A)) :
    durationsOf l₁ A = durationsOf l₂ A ∧
    symbolOutliers l₁ A = symbolOutliers l₂ A ∧
    (check_phoneme_distribution l₁).filter (fun o => o.phoneme = A) =
      (check_phoneme_distribution l₂).filter (fun o => o.phoneme = A) := by
  have hd : durationsOf l₁ A = durationsOf l₂ A := by
    unfold durationsOf
    rw [h]
  have hs : symbolOutliers l₁ A = symbolOutliers l₂ A := by
    simp only [symbolOutliers]
    rw [h, hd]
  exact ⟨hd, hs, by rw [check_filter_symbol, check_filter_symbol, hs]⟩

/-- C9 (witness): `corpus1` and `corpus2` share their `A` rows and differ in
every `B` row. -/
theorem outlier_check_symbol_local_witness :
    durationsOf corpus1 "A" = durationsOf corpus2 "A" ∧
    symbolOutliers corpus1 "A" = symbolOutliers corpus2 "A" ∧
    (check_phoneme_distribution corpus1).filter (fun o => o.phoneme = "A") =
      (check_phoneme_distribution corpus2).filter (fun o => o.phoneme = "A") :=
  outlier_check_symbol_local corpus1 corpus2 "A" rfl

/-- C10: the duration check emits at most one anomaly per row occurrence
(the four per-record counts sum to at most the row's multiplicity), and the
word/phoneme consistency check emits at most one entry per word row. -/
theorem at_most_one_anomaly_per_record (ps : List PhonemeRec) (ws : List WordRec) :
    (∀ r : PhonemeRec,
      (check_duration_anomalies ps).too_short_vowels.count r +
        (check_duration_anomalies ps).too_long_vowels.count r +
        (check_duration_anomalies ps).too_short_consonants.count r +
        (check_duration_anomalies ps).too_long_consonants.count r ≤ ps.count r) ∧
    (check_word_phoneme_consistency ws ps).length ≤ ws.length := by
  constructor
  · intro r
    unfold check_duration_anomalies
    rcases hc : durCategory r with _ | c
    · have h0 : ∀ c : DurCat, (ps.filter (fun x => durCategory x = some c)).count r = 0 := by
        intro c
        refine List.count_eq_zero.mpr ?_
        simp [List.mem_filter, hc]
      simp [h0]
    · have key : ∀ c' : DurCat, (ps.filter (fun x => durCategory x = some c')).count r =
          if c = c' then ps.count r else 0 := by
        intro c'
        by_cases h : c = c'
        · rw [if_pos h]
          subst h
          refine List.count_filter ?_
          simp [hc]
        · rw [if_neg h]
          refine List.count_eq_zero.mpr ?_
          simp [List.mem_filter, hc, h]
      rcases c <;> simp [key]
  · exact List.length_filterMap_le _ _

end MFA
